import Mathlib

/-!
Verification of the external-node builder (`core/bin/external_node/src/node_builder.rs`):
component selection, dependency validation, and layered service composition.

The Rust builder accumulates "layers" into a `ZkStackServiceBuilder`. We embed a layer
as a value of the inductive `Layer` carrying exactly the parameters the source passes
to the layer constructor, the configuration as a record of the fields the source reads,
and the build as a function producing the accumulated layer sequence.  Fallible steps
(`anyhow::ensure!`, `?`) become the `err` outcome; `todo!()` and `.expect(..)` become
the `panicked` outcome.  Both failing outcomes record the layers that had already been
registered in the builder at the moment of failure, mirroring the mutated `self.node`.

The call `components.sort_unstable_by_key(..)` is embedded by its contract rather
than by a fixed algorithm: `build` is parameterized by a sort function, and theorems
assume only `sort_unstable_spec` — the result is a permutation of the input, sorted
by the key, stable only on the standard library's short-slice insertion-sort path —
since an unstable sort promises nothing about the relative order of equal-key
components in general.
-/

namespace ExternalNode

/-- The closed enumeration of selectable components (`Component` from the crate root,
matched on in `ExternalNodeBuilder::build`): `core`, `tree`, `tree_api`, `tree_fetcher`,
`http_api`, `ws_api`. -/
inductive Component where
  | httpApi
  | wsApi
  | tree
  | treeApi
  | treeFetcher
  | core
deriving DecidableEq

/-- API namespaces (`zksync_node_api_server::web3::Namespace`); the builder only
inspects whether `Debug` is enabled. -/
inductive Namespace where
  | eth
  | net
  | web3
  | debug
  | zks
  | pubsub
deriving DecidableEq

/-- Commitment data generator mode (`l1_batch_commit_data_generator_mode`). -/
inductive CommitmentMode where
  | rollup
  | validium
deriving DecidableEq

/-- Consensus mode (`consensus::Mode`); the external node always uses `External`. -/
inductive ConsensusMode where
  | main
  | external
deriving DecidableEq

/-- The `zksync_config::PostgresConfig` value constructed inside `add_pools_layer`. -/
structure PostgresConfig where
  max_connections : Option Nat
  max_connections_master : Option Nat
  acquire_timeout_sec : Option Nat
  statement_timeout_sec : Option Nat
  long_connection_threshold_ms : Option Nat
  slow_query_threshold_ms : Option Nat
  test_server_url : Option String
  test_prover_url : Option String
deriving DecidableEq

/-- `zksync_config::configs::DatabaseSecrets` constructed inside `add_pools_layer`. -/
structure DatabaseSecrets where
  server_url : Option String
  server_replica_url : Option String
  prover_url : Option String
deriving DecidableEq

/-- `HealthCheckConfig` constructed inside `add_healthcheck_layer`. -/
structure HealthCheckConfig where
  port : Nat
  slow_time_limit_ms : Option Nat
  hard_time_limit_ms : Option Nat
deriving DecidableEq

/-- The postgres section of the external-node configuration (fields read by the
builder: `max_connections` and `database_url()`). -/
structure EnPostgresConfig where
  max_connections : Nat
  database_url : String
deriving DecidableEq

/-- The required section of the external-node configuration (fields read by the
builder). -/
structure RequiredENConfig where
  main_node_url : String
  l2_chain_id : Nat
  l1_chain_id : Nat
  eth_client_url : String
  healthcheck_port : Nat
  state_cache_path : String
deriving DecidableEq

/-- The optional section of the external-node configuration (fields read by the
builder; durations are modelled in milliseconds). -/
structure OptionalENConfig where
  slow_query_threshold : Option Nat
  healthcheck_slow_time_limit : Option Nat
  healthcheck_hard_time_limit : Option Nat
  main_node_rate_limit_rps : Nat
  l2_block_seal_queue_capacity : Nat
  protective_reads_persistence_enabled : Bool
  api_namespaces : List Namespace
  pruning_enabled : Bool
  pruning_removal_delay : Nat
  pruning_chunk_size : Nat
  pruning_data_retention : Nat
  l1_batch_commit_data_generator_mode : CommitmentMode
deriving DecidableEq

/-- The experimental section of the external-node configuration. -/
structure ExperimentalENConfig where
  state_keeper_db_block_cache_capacity : Nat
  state_keeper_db_max_open_files : Option Nat
  commitment_generator_max_parallelism : Option Nat
deriving DecidableEq

/-- The remote section of the external-node configuration (values fetched from the
main node); addresses are modelled as naturals. -/
structure RemoteENConfig where
  l2_shared_bridge_addr : Option Nat
  diamond_proxy_addr : Nat
deriving DecidableEq

/-- The observability section; `prometheus` is the optional prometheus exporter
configuration (modelled opaquely). -/
structure ObservabilityENConfig where
  prometheus : Option Nat
deriving DecidableEq

/-- `ExternalNodeConfig`: the configuration bundle held by the builder, restricted to
the sections and fields `node_builder.rs` reads. -/
structure ExternalNodeConfig where
  required : RequiredENConfig
  optional : OptionalENConfig
  experimental : ExperimentalENConfig
  remote : RemoteENConfig
  observability : ObservabilityENConfig
  postgres : EnPostgresConfig
  consensus : Option Nat
deriving DecidableEq

/-- The builder's environment: the configuration plus the outcome of the consensus
secret-store read.

The field `read_consensus_secrets` is modelled from the spec: it stands for
`config::read_consensus_secrets()` (the `config` module is not among the extracted
sources), a synchronous read of consensus key material from a dedicated secret store;
absence or malformed content is a fatal, context-annotated build error, and a
successful read yields optional secrets handed to the consensus layer. -/
structure Env where
  config : ExternalNodeConfig
  read_consensus_secrets : Except String (Option Nat)

/-- A registered layer, carrying exactly the parameters the source passes to the
corresponding layer constructor. -/
inductive Layer where
  | sigintHandler
  | healthCheck (cfg : HealthCheckConfig)
  | prometheusExporter (cfg : Nat)
  | pools (config : PostgresConfig) (secrets : DatabaseSecrets)
      (with_master : Bool) (with_replica : Bool)
  | mainNodeClient (url : String) (rate_limit_rps : Nat) (l2_chain_id : Nat)
  | queryEthClient (l1_chain_id : Nat) (url : String)
  | commitmentModeValidation (diamond_proxy_addr : Nat) (mode : CommitmentMode)
  | validateChainIds (l1_chain_id : Nat) (l2_chain_id : Nat)
  | postgresMetrics
  | outputHandler (l2_shared_bridge_addr : Nat) (seal_queue_capacity : Nat)
      (pre_insert_txs : Bool) (protective_reads : Bool)
  | externalIo (l2_chain_id : Nat)
  | mainBatchExecutor (save_call_traces : Bool) (optional_bytecode_compression : Bool)
  | stateKeeper (state_cache_path : String) (block_cache_capacity : Nat)
      (max_open_files : Option Nat)
  | consensus (mode : ConsensusMode) (config : Option Nat) (secrets : Option Nat)
  | pruning (removal_delay : Nat) (chunk_size : Nat) (data_retention : Nat)
  | consistencyChecker (diamond_proxy_addr : Nat) (max_batches_to_recheck : Nat)
      (mode : CommitmentMode)
  | commitmentGenerator (mode : CommitmentMode) (max_parallelism : Option Nat)
  | batchStatusUpdater
  | treeDataFetcher (diamond_proxy_addr : Nat)
deriving DecidableEq

/-- Outcome of a (partial) build.  All three outcomes record the layers registered in
the builder so far: on `err` (a propagated `anyhow` error) and on `panicked`
(a `todo!()` or `.expect(..)` panic) these are the layers that had already been added
to `self.node` when the failure occurred. -/
inductive BuildResult where
  | ok (layers : List Layer)
  | err (layers : List Layer) (msg : String)
  | panicked (layers : List Layer) (msg : String)
deriving DecidableEq

/-- Sequencing of builder steps: `?`-propagation of errors (and trivial propagation of
panics). -/
def BuildResult.andThen : BuildResult → (List Layer → BuildResult) → BuildResult
  | .ok ls, f => f ls
  | .err ls m, _ => .err ls m
  | .panicked ls m, _ => .panicked ls m

/-- Modelled from the spec: `ZkStackServiceBuilder::add_layer` (the node-framework
service builder is not among the extracted sources).  Per the spec, duplicates are
semantically a no-op and "no layer is registered twice": a layer already present in
the builder is not added again; otherwise it is appended. -/
def add_layer (ls : List Layer) (l : Layer) : List Layer :=
  if l ∈ ls then ls else ls ++ [l]

/-- `add_sigint_handler_layer`. -/
def add_sigint_handler_layer (_env : Env) (ls : List Layer) : BuildResult :=
  .ok (add_layer ls .sigintHandler)

/-- The `PostgresConfig` value constructed in `add_pools_layer` (the replica reuses
the master settings; unsupported settings are `None`). -/
def pools_config (env : Env) : PostgresConfig :=
  { max_connections := some env.config.postgres.max_connections
    max_connections_master := some env.config.postgres.max_connections
    acquire_timeout_sec := none
    statement_timeout_sec := none
    long_connection_threshold_ms := none
    slow_query_threshold_ms := env.config.optional.slow_query_threshold
    test_server_url := none
    test_prover_url := none }

/-- The `DatabaseSecrets` value constructed in `add_pools_layer`. -/
def pools_secrets (env : Env) : DatabaseSecrets :=
  { server_url := some env.config.postgres.database_url
    server_replica_url := some env.config.postgres.database_url
    prover_url := none }

/-- `add_pools_layer`: constructs `PostgresConfig` and `DatabaseSecrets` from the
node's postgres section (reusing the master settings for the replica) and registers
the pools layer with master and replica enabled. -/
def add_pools_layer (env : Env) (ls : List Layer) : BuildResult :=
  .ok (add_layer ls (.pools (pools_config env) (pools_secrets env) true true))

/-- `add_postgres_metrics_layer`. -/
def add_postgres_metrics_layer (_env : Env) (ls : List Layer) : BuildResult :=
  .ok (add_layer ls .postgresMetrics)

/-- `add_main_node_client_layer`. -/
def add_main_node_client_layer (env : Env) (ls : List Layer) : BuildResult :=
  .ok (add_layer ls (.mainNodeClient env.config.required.main_node_url
    env.config.optional.main_node_rate_limit_rps env.config.required.l2_chain_id))

/-- The `HealthCheckConfig` value constructed in `add_healthcheck_layer`. -/
def healthcheck_config (env : Env) : HealthCheckConfig :=
  { port := env.config.required.healthcheck_port
    slow_time_limit_ms := env.config.optional.healthcheck_slow_time_limit
    hard_time_limit_ms := env.config.optional.healthcheck_hard_time_limit }

/-- `add_healthcheck_layer`. -/
def add_healthcheck_layer (env : Env) (ls : List Layer) : BuildResult :=
  .ok (add_layer ls (.healthCheck (healthcheck_config env)))

/-- `add_prometheus_exporter_layer`: registered only when prometheus configuration is
present; its absence is a logged skip, not an error. -/
def add_prometheus_exporter_layer (env : Env) (ls : List Layer) : BuildResult :=
  match env.config.observability.prometheus with
  | some prom_config => .ok (add_layer ls (.prometheusExporter prom_config))
  | none => .ok ls

/-- `add_query_eth_client_layer`. -/
def add_query_eth_client_layer (env : Env) (ls : List Layer) : BuildResult :=
  .ok (add_layer ls (.queryEthClient env.config.required.l1_chain_id
    env.config.required.eth_client_url))

/-- The constant `OPTIONAL_BYTECODE_COMPRESSION` from `add_state_keeper_layer`. -/
def OPTIONAL_BYTECODE_COMPRESSION : Bool := true

/-- `add_state_keeper_layer`: registers the four state-replication pipeline layers
(persistence, input feed, batch executor, state-keeper driver).  The persistence
layer unwraps `remote.l2_shared_bridge_addr` with
`.expect("L2 shared bridge address is not set")`, which panics when the address is
absent. -/
def add_state_keeper_layer (env : Env) (ls : List Layer) : BuildResult :=
  match env.config.remote.l2_shared_bridge_addr with
  | none => .panicked ls "L2 shared bridge address is not set"
  | some bridge_addr =>
    let persistence_layer : Layer :=
      .outputHandler bridge_addr env.config.optional.l2_block_seal_queue_capacity
        true env.config.optional.protective_reads_persistence_enabled
    let io_layer : Layer := .externalIo env.config.required.l2_chain_id
    let save_call_traces := env.config.optional.api_namespaces.contains .debug
    let batch_executor_layer : Layer :=
      .mainBatchExecutor save_call_traces OPTIONAL_BYTECODE_COMPRESSION
    let state_keeper_layer : Layer :=
      .stateKeeper env.config.required.state_cache_path
        env.config.experimental.state_keeper_db_block_cache_capacity
        env.config.experimental.state_keeper_db_max_open_files
    .ok (add_layer (add_layer (add_layer (add_layer ls persistence_layer) io_layer)
      batch_executor_layer) state_keeper_layer)

/-- `add_consensus_layer`: reads consensus secrets (a failure is a fatal build error
annotated with the context string) and registers the consensus layer in `External`
mode. -/
def add_consensus_layer (env : Env) (ls : List Layer) : BuildResult :=
  match env.read_consensus_secrets with
  | .error e => .err ls ("config::read_consensus_secrets(): " ++ e)
  | .ok secrets =>
    .ok (add_layer ls (.consensus .external env.config.consensus secrets))

/-- `add_pruning_layer`: registered only when pruning is enabled; disabled pruning is
a logged skip, not an error. -/
def add_pruning_layer (env : Env) (ls : List Layer) : BuildResult :=
  if env.config.optional.pruning_enabled then
    .ok (add_layer ls (.pruning env.config.optional.pruning_removal_delay
      env.config.optional.pruning_chunk_size
      env.config.optional.pruning_data_retention))
  else
    .ok ls

/-- `add_l1_batch_commitment_mode_validation_layer`. -/
def add_l1_batch_commitment_mode_validation_layer (env : Env) (ls : List Layer) :
    BuildResult :=
  .ok (add_layer ls (.commitmentModeValidation env.config.remote.diamond_proxy_addr
    env.config.optional.l1_batch_commit_data_generator_mode))

/-- `add_validate_chain_ids_layer`. -/
def add_validate_chain_ids_layer (env : Env) (ls : List Layer) : BuildResult :=
  .ok (add_layer ls (.validateChainIds env.config.required.l1_chain_id
    env.config.required.l2_chain_id))

/-- `add_consistency_checker_layer` (`max_batches_to_recheck` is the hard-coded 10). -/
def add_consistency_checker_layer (env : Env) (ls : List Layer) : BuildResult :=
  .ok (add_layer ls (.consistencyChecker env.config.remote.diamond_proxy_addr 10
    env.config.optional.l1_batch_commit_data_generator_mode))

/-- `add_commitment_generator_layer`. -/
def add_commitment_generator_layer (env : Env) (ls : List Layer) : BuildResult :=
  .ok (add_layer ls (.commitmentGenerator
    env.config.optional.l1_batch_commit_data_generator_mode
    env.config.experimental.commitment_generator_max_parallelism))

/-- `add_batch_status_updater_layer`. -/
def add_batch_status_updater_layer (_env : Env) (ls : List Layer) : BuildResult :=
  .ok (add_layer ls .batchStatusUpdater)

/-- `add_tree_data_fetcher_layer`. -/
def add_tree_data_fetcher_layer (env : Env) (ls : List Layer) : BuildResult :=
  .ok (add_layer ls (.treeDataFetcher env.config.remote.diamond_proxy_addr))

/-- The sort key used by `build`: `HttpApi` and `WsApi` get priority 1 (API consumes
resources provided by other layers, so it must come last), everything else 0. -/
def component_key (c : Component) : Nat :=
  match c with
  | .httpApi | .wsApi => 1
  | _ => 0

/-- Insertion step of a stable insertion sort by `component_key` (the algorithm the
standard library's sort routine applies to short slices): the inserted element is
placed before the first element of greater-or-equal key. -/
def insert_by_key (c : Component) : List Component → List Component
  | [] => [c]
  | x :: xs =>
    if component_key c ≤ component_key x then c :: x :: xs
    else x :: insert_by_key c xs

/-- The stable insertion sort by `component_key`.  This is the algorithm
`sort_unstable_by_key` dispatches to for slices no longer than the standard
library's insertion-sort threshold (`MAX_INSERTION = 20`); it also serves as one
concrete function satisfying `sort_unstable_spec`, used to evaluate the build on
concrete inputs. -/
def sort_by_key_stable : List Component → List Component
  | [] => []
  | c :: rest => insert_by_key c (sort_by_key_stable rest)

/-- The behaviour guaranteed by `components.sort_unstable_by_key(..)` at the call
site in `build`: the result is a permutation of the input, non-decreasing in
`component_key`.  The sort is deliberately unstable — the relative order of
equal-key components is not specified in general — but slices no longer than the
standard library's insertion-sort threshold (20 elements) are sorted by a stable
insertion sort.  `build` is parameterized by an arbitrary function satisfying this
contract. -/
def sort_unstable_spec (f : List Component → List Component) : Prop :=
  ∀ l : List Component,
    List.Perm (f l) l ∧
    (f l).Pairwise (fun a b => component_key a ≤ component_key b) ∧
    (l.length ≤ 20 → f l = sort_by_key_stable l)

/-- A second function satisfying the `sort_unstable_by_key` contract, which reorders
equal-key components on slices beyond the insertion-sort threshold (as the standard
library's unstable sort may): it witnesses that the contract does not promise
stability. -/
def sort_by_key_rev (l : List Component) : List Component :=
  if l.length ≤ 20 then sort_by_key_stable l
  else
    (l.filter (fun c => component_key c == 0)).reverse ++
      l.filter (fun c => component_key c == 1)

/-- The per-component arm of the `for` loop in `build`.  `components` is the (sorted)
component vector the `ensure!` checks consult.  `HttpApi`, `WsApi`, and the `Tree`
expansion proper are `todo!()` (a panic with "not yet implemented"); `Tree` first
ensures `Core` is present and `TreeApi` ensures `Tree` is present, failing the build
otherwise; `TreeApi` otherwise contributes nothing. -/
def expand_component (env : Env) (components : List Component) (ls : List Layer) :
    Component → BuildResult
  | .httpApi => .panicked ls "not yet implemented"
  | .wsApi => .panicked ls "not yet implemented"
  | .tree =>
    if Component.core ∈ components then
      .panicked ls "not yet implemented"
    else
      .err ls "Tree must run on the same machine as Core"
  | .treeApi =>
    if Component.tree ∈ components then
      .ok ls
    else
      .err ls "Merkle tree API cannot be started without a tree component"
  | .treeFetcher => add_tree_data_fetcher_layer env ls
  | .core =>
    (add_postgres_metrics_layer env ls).andThen fun ls =>
    (add_state_keeper_layer env ls).andThen fun ls =>
    (add_consensus_layer env ls).andThen fun ls =>
    (add_pruning_layer env ls).andThen fun ls =>
    (add_consistency_checker_layer env ls).andThen fun ls =>
    (add_commitment_generator_layer env ls).andThen fun ls =>
    add_batch_status_updater_layer env ls

/-- The `for component in &components` loop of `build`, iterating over `todo_list`
while the membership checks consult the full sorted vector `components`. -/
def run_components (env : Env) (components : List Component) :
    List Component → List Layer → BuildResult
  | [], ls => .ok ls
  | c :: rest, ls =>
    (expand_component env components ls c).andThen (run_components env components rest)

/-- `ExternalNodeBuilder::build`: registers the base layers, then the two
precondition layers, sorts the components by `component_key` (the parameter
`sort_by_key` stands for `sort_unstable_by_key`; theorems constrain it by
`sort_unstable_spec`), and expands each component in sorted order.  The result is
the finalized layer sequence (finalization into the running service is performed by
the node framework outside the extracted sources). -/
def build (sort_by_key : List Component → List Component) (env : Env)
    (components : List Component) : BuildResult :=
  ((((((((add_sigint_handler_layer env []).andThen fun ls =>
    add_healthcheck_layer env ls).andThen fun ls =>
    add_prometheus_exporter_layer env ls).andThen fun ls =>
    add_pools_layer env ls).andThen fun ls =>
    add_main_node_client_layer env ls).andThen fun ls =>
    add_query_eth_client_layer env ls).andThen fun ls =>
    add_l1_batch_commitment_mode_validation_layer env ls).andThen fun ls =>
    add_validate_chain_ids_layer env ls).andThen fun ls =>
  let sorted := sort_by_key components
  run_components env sorted sorted ls

/-- The layers recorded in a build outcome (registered up to success or up to the
point of failure). -/
def BuildResult.layers : BuildResult → List Layer
  | .ok ls => ls
  | .err ls _ => ls
  | .panicked ls _ => ls

/-- Whether the outcome is a success. -/
def BuildResult.isOk : BuildResult → Bool
  | .ok _ => true
  | _ => false

/-- Whether the outcome is a graceful (`anyhow`) error. -/
def BuildResult.isErr : BuildResult → Bool
  | .err _ _ => true
  | _ => false

/-- Whether the outcome is a panic (`todo!()` or `.expect(..)`). -/
def BuildResult.isPanicked : BuildResult → Bool
  | .panicked _ _ => true
  | _ => false

/-- The error or panic message of a failed outcome. -/
def BuildResult.failMsg : BuildResult → Option String
  | .ok _ => none
  | .err _ m => some m
  | .panicked _ m => some m

/-- A concrete, fully specified environment used by witnesses and counterexamples. -/
def sampleEnv : Env :=
  { config :=
    { required :=
      { main_node_url := "http://main-node.local:3050"
        l2_chain_id := 270
        l1_chain_id := 9
        eth_client_url := "http://l1.local:8545"
        healthcheck_port := 3081
        state_cache_path := "./db/ext-node/state_keeper" }
      optional :=
      { slow_query_threshold := some 100
        healthcheck_slow_time_limit := none
        healthcheck_hard_time_limit := none
        main_node_rate_limit_rps := 100
        l2_block_seal_queue_capacity := 10
        protective_reads_persistence_enabled := false
        api_namespaces := [.eth, .net, .web3]
        pruning_enabled := true
        pruning_removal_delay := 60000
        pruning_chunk_size := 10
        pruning_data_retention := 3600000
        l1_batch_commit_data_generator_mode := .rollup }
      experimental :=
      { state_keeper_db_block_cache_capacity := 128
        state_keeper_db_max_open_files := none
        commitment_generator_max_parallelism := none }
      remote :=
      { l2_shared_bridge_addr := some 4660
        diamond_proxy_addr := 50 }
      observability := { prometheus := some 1 }
      postgres := { max_connections := 50, database_url := "postgres://localhost/en" }
      consensus := none }
    read_consensus_secrets := .ok none }

/-- `sampleEnv` with the remote L2 shared bridge address absent. -/
def sampleEnvNoBridge : Env :=
  { sampleEnv with
    config := { sampleEnv.config with
      remote := { sampleEnv.config.remote with l2_shared_bridge_addr := none } } }

/-- The base and precondition layers registered by `build` before the component
loop: sigint handler, health-check server, prometheus exporter (when configured),
connection pools, main-node client, L1 query client, then the commitment-mode
validation and chain-id validation preconditions. -/
def base_layers (env : Env) : List Layer :=
  [Layer.sigintHandler, Layer.healthCheck (healthcheck_config env)] ++
  (match env.config.observability.prometheus with
   | some prom_config => [Layer.prometheusExporter prom_config]
   | none => []) ++
  [Layer.pools (pools_config env) (pools_secrets env) true true,
   Layer.mainNodeClient env.config.required.main_node_url
     env.config.optional.main_node_rate_limit_rps env.config.required.l2_chain_id,
   Layer.queryEthClient env.config.required.l1_chain_id
     env.config.required.eth_client_url,
   Layer.commitmentModeValidation env.config.remote.diamond_proxy_addr
     env.config.optional.l1_batch_commit_data_generator_mode,
   Layer.validateChainIds env.config.required.l1_chain_id
     env.config.required.l2_chain_id]

/-- Constructor index of a layer (the builder never registers two layers of the same
kind with different parameters, so the index identifies a layer within one build). -/
def Layer.tag : Layer → Nat
  | .sigintHandler => 0
  | .healthCheck _ => 1
  | .prometheusExporter _ => 2
  | .pools _ _ _ _ => 3
  | .mainNodeClient _ _ _ => 4
  | .queryEthClient _ _ => 5
  | .commitmentModeValidation _ _ => 6
  | .validateChainIds _ _ => 7
  | .postgresMetrics => 8
  | .outputHandler _ _ _ _ => 9
  | .externalIo _ => 10
  | .mainBatchExecutor _ _ => 11
  | .stateKeeper _ _ _ => 12
  | .consensus _ _ _ => 13
  | .pruning _ _ _ => 14
  | .consistencyChecker _ _ _ => 15
  | .commitmentGenerator _ _ => 16
  | .batchStatusUpdater => 17
  | .treeDataFetcher _ => 18

/-- The layers contributed by the `Core` expansion, in registration order: postgres
metrics, then the replication pipeline (persistence, input feed, batch executor,
state-keeper driver), consensus, pruning (only when enabled), consistency checker,
commitment generator, and batch-status updater.  `a` is the bridge address and
`sec` the consensus secrets obtained during the expansion. -/
def core_layers (env : Env) (a : Nat) (sec : Option Nat) : List Layer :=
  [Layer.postgresMetrics,
   Layer.outputHandler a env.config.optional.l2_block_seal_queue_capacity true
     env.config.optional.protective_reads_persistence_enabled,
   Layer.externalIo env.config.required.l2_chain_id,
   Layer.mainBatchExecutor (env.config.optional.api_namespaces.contains .debug)
     OPTIONAL_BYTECODE_COMPRESSION,
   Layer.stateKeeper env.config.required.state_cache_path
     env.config.experimental.state_keeper_db_block_cache_capacity
     env.config.experimental.state_keeper_db_max_open_files,
   Layer.consensus .external env.config.consensus sec] ++
  (if env.config.optional.pruning_enabled then
    [Layer.pruning env.config.optional.pruning_removal_delay
      env.config.optional.pruning_chunk_size
      env.config.optional.pruning_data_retention]
   else []) ++
  [Layer.consistencyChecker env.config.remote.diamond_proxy_addr 10
     env.config.optional.l1_batch_commit_data_generator_mode,
   Layer.commitmentGenerator env.config.optional.l1_batch_commit_data_generator_mode
     env.config.experimental.commitment_generator_max_parallelism,
   Layer.batchStatusUpdater]

/-- Invariant of the component loop over `core`/`tree_fetcher` entries: `coreIn`
(resp. `tfIn`) records whether the core expansion (resp. the tree-fetcher layer) has
been registered; the accumulated layers are exactly the base layers plus the
registered expansions, without duplicates. -/
def LoopInv (env : Env) (a : Nat) (sec : Option Nat) (coreIn tfIn : Bool)
    (ls : List Layer) : Prop :=
  (∀ l ∈ core_layers env a sec, (l ∈ ls ↔ coreIn = true)) ∧
  ((Layer.treeDataFetcher env.config.remote.diamond_proxy_addr ∈ ls) ↔
    tfIn = true) ∧
  ls.Nodup ∧
  ls.length = (base_layers env).length +
    (cond coreIn (core_layers env a sec).length 0) + (cond tfIn 1 0) ∧
  (∀ l ∈ ls, l ∈ base_layers env ∨ l ∈ core_layers env a sec ∨
    l = Layer.treeDataFetcher env.config.remote.diamond_proxy_addr) ∧
  (∀ l ∈ base_layers env, l ∈ ls)

/-- Every component's key is 0 or 1. -/
theorem component_key_cases (c : Component) :
    component_key c = 0 ∨ component_key c = 1 := by
  cases c <;> simp [component_key]

/-- A key-1 component is one of the two API components. -/
theorem component_key_eq_one_iff (c : Component) :
    component_key c = 1 ↔ (c = .httpApi ∨ c = .wsApi) := by
  cases c <;> simp [component_key]

/-- Inserting a key-0 component puts it in front. -/
theorem insert_by_key_of_key_zero (c : Component) (l : List Component)
    (hc : component_key c = 0) : insert_by_key c l = c :: l := by
  cases l with
  | nil => rfl
  | cons x xs => simp [insert_by_key, hc]

/-- Inserting a key-1 component into a partitioned list puts it in front of the
key-1 block. -/
theorem insert_by_key_of_key_one (c : Component) (l0 l1 : List Component)
    (hc : component_key c = 1) (h0 : ∀ x ∈ l0, component_key x = 0)
    (h1 : ∀ x ∈ l1, component_key x = 1) :
    insert_by_key c (l0 ++ l1) = l0 ++ c :: l1 := by
  induction l0 with
  | nil =>
    cases l1 with
    | nil => rfl
    | cons y ys =>
      have hy : component_key y = 1 := h1 y (by simp)
      simp [insert_by_key, hc, hy]
  | cons x xs ih =>
    have hx : component_key x = 0 := h0 x (by simp)
    have hxs : ∀ z ∈ xs, component_key z = 0 := fun z hz => h0 z (by simp [hz])
    simp [insert_by_key, hc, hx, ih hxs]

/-- The stable insertion sort is the stable partition: key-0 components first in
input order, then key-1 components in input order. -/
theorem sort_by_key_stable_eq_filter (l : List Component) :
    sort_by_key_stable l =
      l.filter (fun c => component_key c == 0) ++
        l.filter (fun c => component_key c == 1) := by
  induction l with
  | nil => rfl
  | cons c rest ih =>
    have h0 : ∀ x ∈ rest.filter (fun c => component_key c == 0),
        component_key x = 0 := by
      intro x hx
      simpa using (List.of_mem_filter hx)
    have h1 : ∀ x ∈ rest.filter (fun c => component_key c == 1),
        component_key x = 1 := by
      intro x hx
      simpa using (List.of_mem_filter hx)
    rcases component_key_cases c with hc | hc
    · simp only [sort_by_key_stable, ih, insert_by_key_of_key_zero c _ hc]
      simp [List.filter_cons, hc]
    · simp only [sort_by_key_stable, ih, insert_by_key_of_key_one c _ _ hc h0 h1]
      simp [List.filter_cons, hc]

/-- The key-0 part of a list followed by its key-1 part is a permutation of it. -/
theorem filter_key_append_perm (l : List Component) :
    List.Perm
      (l.filter (fun c => component_key c == 0) ++
        l.filter (fun c => component_key c == 1)) l := by
  have hfun : (fun c : Component => component_key c == 1) =
      fun c => !(component_key c == 0) := funext fun c => by cases c <;> rfl
  rw [hfun]
  exact List.filter_append_perm _ l

/-- A key-0 block followed by a key-1 block is sorted by the key. -/
theorem pairwise_le_key_append (z o : List Component)
    (hz : ∀ c ∈ z, component_key c = 0) (ho : ∀ c ∈ o, component_key c = 1) :
    (z ++ o).Pairwise (fun a b => component_key a ≤ component_key b) := by
  rw [List.pairwise_append]
  refine ⟨?_, ?_, ?_⟩
  · exact List.pairwise_of_forall_mem_list fun a ha b hb => by
      simp [hz a ha, hz b hb]
  · exact List.pairwise_of_forall_mem_list fun a ha b hb => by
      simp [ho a ha, ho b hb]
  · intro a ha b hb
    simp [hz a ha, ho b hb]

/-- A list sorted by the two-valued key is its key-0 part followed by its key-1
part. -/
theorem sorted_eq_filter_append (l : List Component)
    (hl : l.Pairwise (fun a b => component_key a ≤ component_key b)) :
    l = l.filter (fun c => component_key c == 0) ++
      l.filter (fun c => component_key c == 1) := by
  induction l with
  | nil => rfl
  | cons c rest ih =>
    have hc := List.pairwise_cons.mp hl
    rcases component_key_cases c with h0 | h1
    · conv_lhs => rw [ih hc.2]
      simp [List.filter_cons, h0]
    · have hall : ∀ b ∈ rest, component_key b = 1 := by
        intro b hb
        have hle := hc.1 b hb
        rcases component_key_cases b with hb0 | hb1
        · rw [h1, hb0] at hle
          omega
        · exact hb1
      have hf0 : rest.filter (fun c => component_key c == 0) = [] :=
        List.filter_eq_nil_iff.mpr (fun b hb => by simp [hall b hb])
      have hf1 : rest.filter (fun c => component_key c == 1) = rest :=
        List.filter_eq_self.mpr (fun b hb => by simp [hall b hb])
      simp [List.filter_cons, h1, hf0, hf1]

/-- The stable insertion sort satisfies the `sort_unstable_by_key` contract. -/
theorem sort_by_key_stable_spec : sort_unstable_spec sort_by_key_stable := by
  intro l
  refine ⟨?_, ?_, fun _ => rfl⟩
  · rw [sort_by_key_stable_eq_filter]
    exact filter_key_append_perm l
  · rw [sort_by_key_stable_eq_filter]
    exact pairwise_le_key_append _ _
      (fun c hc => by simpa using List.of_mem_filter hc)
      (fun c hc => by simpa using List.of_mem_filter hc)

/-- The equal-key-reversing sort also satisfies the `sort_unstable_by_key`
contract. -/
theorem sort_by_key_rev_spec : sort_unstable_spec sort_by_key_rev := by
  intro l
  by_cases hlen : l.length ≤ 20
  · have heq : sort_by_key_rev l = sort_by_key_stable l := if_pos hlen
    rw [heq]
    exact ⟨(sort_by_key_stable_spec l).1, (sort_by_key_stable_spec l).2.1,
      fun _ => rfl⟩
  · have heq : sort_by_key_rev l =
        (l.filter (fun c => component_key c == 0)).reverse ++
          l.filter (fun c => component_key c == 1) := if_neg hlen
    refine ⟨?_, ?_, fun h => absurd h hlen⟩
    · rw [heq]
      exact List.Perm.trans
        (List.Perm.append_right _ (List.reverse_perm _))
        (filter_key_append_perm l)
    · rw [heq]
      refine pairwise_le_key_append _ _ ?_
        (fun c hc => by simpa using List.of_mem_filter hc)
      intro c hc
      rw [List.mem_reverse] at hc
      simpa using List.of_mem_filter hc

/-- A key-0 component is one of the four non-API components. -/
theorem component_key_eq_zero_iff (c : Component) :
    component_key c = 0 ↔
      (c = .tree ∨ c = .treeApi ∨ c = .treeFetcher ∨ c = .core) := by
  cases c <;> simp [component_key]

/-- The base phase of `build` always succeeds and registers exactly `base_layers`;
the build then runs the component loop on the sorted components. -/
theorem build_eq_run (f : List Component → List Component) (env : Env)
    (components : List Component) :
    build f env components =
      run_components env (f components) (f components) (base_layers env) := by
  cases hp : env.config.observability.prometheus <;>
    simp [build, add_sigint_handler_layer, add_healthcheck_layer,
      add_prometheus_exporter_layer, add_pools_layer, add_main_node_client_layer,
      add_query_eth_client_layer, add_l1_batch_commitment_mode_validation_layer,
      add_validate_chain_ids_layer, BuildResult.andThen, add_layer, base_layers, hp]

/-- The base layer list is never empty. -/
theorem base_layers_ne_nil (env : Env) : base_layers env ≠ [] := by
  cases hp : env.config.observability.prometheus <;> simp [base_layers, hp]

/-- Associativity of builder-step sequencing. -/
theorem andThen_assoc (r : BuildResult) (f g : List Layer → BuildResult) :
    (r.andThen f).andThen g = r.andThen fun ls => (f ls).andThen g := by
  cases r <;> rfl

/-- Adding a layer extends the accumulated list on the right. -/
theorem add_layer_extends (ls : List Layer) (l : Layer) :
    ∃ t, add_layer ls l = ls ++ t := by
  unfold add_layer
  split
  · exact ⟨[], by simp⟩
  · exact ⟨[l], rfl⟩

/-- Transitive form of `add_layer_extends`, for chains of additions. -/
theorem add_layer_extends_trans (ls m : List Layer) (l : Layer)
    (h : ∃ t, m = ls ++ t) : ∃ t, add_layer m l = ls ++ t := by
  obtain ⟨t, rfl⟩ := h
  obtain ⟨t2, h2⟩ := add_layer_extends (ls ++ t) l
  exact ⟨t ++ t2, by rw [h2, List.append_assoc]⟩

/-- Splitting the component loop over an appended list. -/
theorem run_components_append (env : Env) (s l1 l2 : List Component)
    (ls : List Layer) :
    run_components env s (l1 ++ l2) ls =
      (run_components env s l1 ls).andThen (run_components env s l2) := by
  induction l1 generalizing ls with
  | nil => simp [run_components, BuildResult.andThen]
  | cons c rest ih =>
    simp only [List.cons_append, run_components, List.append_eq]
    have hrw : run_components env s (rest ++ l2) =
        fun ls' => (run_components env s rest ls').andThen
          (run_components env s l2) :=
      funext fun ls' => ih ls'
    rw [hrw, ← andThen_assoc]

/-- Under a set bridge address and a successful secret read, the `Core` expansion
succeeds and extends the layer list on the right. -/
theorem expand_core_ok (env : Env) (s : List Component) (ls : List Layer)
    (a : Nat) (sec : Option Nat)
    (hb : env.config.remote.l2_shared_bridge_addr = some a)
    (hs : env.read_consensus_secrets = Except.ok sec) :
    ∃ t, expand_component env s ls .core = .ok (ls ++ t) := by
  by_cases hpr : env.config.optional.pruning_enabled = true <;>
  · simp only [expand_component, add_postgres_metrics_layer, add_state_keeper_layer,
      hb, add_consensus_layer, hs, add_pruning_layer, hpr,
      add_consistency_checker_layer, add_commitment_generator_layer,
      add_batch_status_updater_layer, BuildResult.andThen, if_true,
      Bool.false_eq_true, if_false, BuildResult.ok.injEq]
    repeat apply add_layer_extends_trans
    exact ⟨[], by simp⟩

/-- With the bridge address absent, the `Core` expansion panics with the `expect`
message, after registering the postgres-metrics layer. -/
theorem expand_core_bridge_panic (env : Env) (s : List Component) (ls : List Layer)
    (hb : env.config.remote.l2_shared_bridge_addr = none) :
    ∃ t, expand_component env s ls .core =
      .panicked (ls ++ t) "L2 shared bridge address is not set" := by
  obtain ⟨t0, h0⟩ := add_layer_extends ls .postgresMetrics
  refine ⟨t0, ?_⟩
  simp only [expand_component, add_postgres_metrics_layer, add_state_keeper_layer,
    hb, BuildResult.andThen, h0]

/-- The tree-fetcher expansion succeeds and extends the layer list on the right. -/
theorem expand_tree_fetcher_ok (env : Env) (s : List Component) (ls : List Layer) :
    ∃ t, expand_component env s ls .treeFetcher = .ok (ls ++ t) := by
  obtain ⟨t0, h0⟩ :=
    add_layer_extends ls (.treeDataFetcher env.config.remote.diamond_proxy_addr)
  exact ⟨t0, by simp [expand_component, add_tree_data_fetcher_layer, h0]⟩

/-- Tags of the base and precondition layers are below 8. -/
theorem tag_lt_of_mem_base_layers (env : Env) :
    ∀ l ∈ base_layers env, l.tag < 8 := by
  cases hp : env.config.observability.prometheus <;>
    simp [base_layers, hp, Layer.tag]

/-- Tags of the core-expansion layers lie between 8 and 17. -/
theorem tag_range_of_mem_core_layers (env : Env) (a : Nat) (sec : Option Nat) :
    ∀ l ∈ core_layers env a sec, 8 ≤ l.tag ∧ l.tag ≤ 17 := by
  by_cases hpr : env.config.optional.pruning_enabled = true <;>
    simp [core_layers, hpr, Layer.tag]

/-- Core-expansion layers are never base layers. -/
theorem core_layers_not_mem_base (env : Env) (a : Nat) (sec : Option Nat) :
    ∀ l ∈ core_layers env a sec, l ∉ base_layers env := by
  intro l hl hbm
  have h8 := (tag_range_of_mem_core_layers env a sec l hl).1
  have hlt := tag_lt_of_mem_base_layers env l hbm
  omega

/-- The tree-data-fetcher layer is neither a base layer nor a core-expansion
layer. -/
theorem tree_data_fetcher_not_mem (env : Env) (a : Nat) (sec : Option Nat)
    (addr : Nat) :
    Layer.treeDataFetcher addr ∉ base_layers env ∧
      Layer.treeDataFetcher addr ∉ core_layers env a sec := by
  constructor
  · intro hm
    have := tag_lt_of_mem_base_layers env _ hm
    simp [Layer.tag] at this
  · intro hm
    have := (tag_range_of_mem_core_layers env a sec _ hm).2
    simp [Layer.tag] at this

/-- The base and precondition layers contain no duplicates. -/
theorem base_layers_nodup (env : Env) : (base_layers env).Nodup := by
  cases hp : env.config.observability.prometheus <;>
    simp [base_layers, hp]

/-- The core-expansion layers contain no duplicates. -/
theorem core_layers_nodup (env : Env) (a : Nat) (sec : Option Nat) :
    (core_layers env a sec).Nodup := by
  by_cases hpr : env.config.optional.pruning_enabled = true <;>
    simp [core_layers, hpr]

/-- Folding `add_layer` over pairwise-distinct fresh layers appends them all. -/
theorem foldl_add_layer_fresh (new : List Layer) :
    ∀ ls, new.Nodup → (∀ l ∈ new, l ∉ ls) →
      List.foldl add_layer ls new = ls ++ new := by
  induction new with
  | nil => intro ls _ _; simp
  | cons x xs ih =>
    intro ls hnd hfresh
    have hx : x ∉ ls := hfresh x (by simp)
    have hstep : add_layer ls x = ls ++ [x] := if_neg hx
    have hfresh2 : ∀ l ∈ xs, l ∉ ls ++ [x] := by
      intro l hl hm
      rcases List.mem_append.mp hm with hm | hm
      · exact hfresh l (List.mem_cons_of_mem _ hl) hm
      · rw [List.mem_singleton] at hm
        exact (List.nodup_cons.mp hnd).1 (hm ▸ hl)
    rw [List.foldl_cons, hstep, ih (ls ++ [x]) (List.nodup_cons.mp hnd).2 hfresh2]
    simp

/-- Folding `add_layer` over already-registered layers is a no-op. -/
theorem foldl_add_layer_subset (new : List Layer) :
    ∀ ls, (∀ l ∈ new, l ∈ ls) → List.foldl add_layer ls new = ls := by
  induction new with
  | nil => intro ls _; simp
  | cons x xs ih =>
    intro ls hsub
    have hstep : add_layer ls x = ls := if_pos (hsub x (by simp))
    rw [List.foldl_cons, hstep, ih ls (fun l hl => hsub l (List.mem_cons_of_mem _ hl))]

/-- Under a set bridge address and a successful secret read, the `Core` expansion is
the fold of `add_layer` over `core_layers`. -/
theorem expand_core_eq_foldl (env : Env) (s : List Component) (ls : List Layer)
    (a : Nat) (sec : Option Nat)
    (hb : env.config.remote.l2_shared_bridge_addr = some a)
    (hs : env.read_consensus_secrets = Except.ok sec) :
    expand_component env s ls .core =
      .ok (List.foldl add_layer ls (core_layers env a sec)) := by
  by_cases hpr : env.config.optional.pruning_enabled = true <;>
    simp [expand_component, add_postgres_metrics_layer, add_state_keeper_layer, hb,
      add_consensus_layer, hs, add_pruning_layer, hpr,
      add_consistency_checker_layer, add_commitment_generator_layer,
      add_batch_status_updater_layer, BuildResult.andThen, core_layers,
      List.foldl_cons, List.foldl_nil]

/-- When none of the core-expansion layers is registered yet, the `Core` expansion
appends exactly `core_layers`, in order. -/
theorem expand_core_eq_of_disjoint (env : Env) (s : List Component)
    (ls : List Layer) (a : Nat) (sec : Option Nat)
    (hb : env.config.remote.l2_shared_bridge_addr = some a)
    (hs : env.read_consensus_secrets = Except.ok sec)
    (hdisj : ∀ l ∈ core_layers env a sec, l ∉ ls) :
    expand_component env s ls .core = .ok (ls ++ core_layers env a sec) := by
  rw [expand_core_eq_foldl env s ls a sec hb hs,
    foldl_add_layer_fresh _ ls (core_layers_nodup env a sec) hdisj]

/-- When all core-expansion layers are already registered, the `Core` expansion is a
no-op (each `add_layer` call deduplicates). -/
theorem expand_core_eq_of_subset (env : Env) (s : List Component)
    (ls : List Layer) (a : Nat) (sec : Option Nat)
    (hb : env.config.remote.l2_shared_bridge_addr = some a)
    (hs : env.read_consensus_secrets = Except.ok sec)
    (hsub : ∀ l ∈ core_layers env a sec, l ∈ ls) :
    expand_component env s ls .core = .ok ls := by
  rw [expand_core_eq_foldl env s ls a sec hb hs, foldl_add_layer_subset _ ls hsub]

/-- When the tree-data-fetcher layer is not registered yet, the `TreeFetcher`
expansion appends exactly it. -/
theorem expand_tree_fetcher_eq (env : Env) (s : List Component) (ls : List Layer)
    (h : Layer.treeDataFetcher env.config.remote.diamond_proxy_addr ∉ ls) :
    expand_component env s ls .treeFetcher =
      .ok (ls ++ [Layer.treeDataFetcher env.config.remote.diamond_proxy_addr]) := by
  simp [expand_component, add_tree_data_fetcher_layer, add_layer, h]

/-- When the tree-data-fetcher layer is already registered, the `TreeFetcher`
expansion is a no-op. -/
theorem expand_tree_fetcher_dup (env : Env) (s : List Component) (ls : List Layer)
    (h : Layer.treeDataFetcher env.config.remote.diamond_proxy_addr ∈ ls) :
    expand_component env s ls .treeFetcher = .ok ls := by
  simp [expand_component, add_tree_data_fetcher_layer, add_layer, h]

/-- The pruning layer occurs among the core-expansion layers exactly when pruning is
enabled, and then only with the configured parameters. -/
theorem pruning_mem_core_layers_iff (env : Env) (a : Nat) (sec : Option Nat)
    (d c r : Nat) :
    Layer.pruning d c r ∈ core_layers env a sec ↔
      (env.config.optional.pruning_enabled = true ∧
        d = env.config.optional.pruning_removal_delay ∧
        c = env.config.optional.pruning_chunk_size ∧
        r = env.config.optional.pruning_data_retention) := by
  by_cases hpr : env.config.optional.pruning_enabled = true <;>
    simp [core_layers, hpr]

/-- The loop invariant holds initially, for the base and precondition layers. -/
theorem loop_inv_base (env : Env) (a : Nat) (sec : Option Nat) :
    LoopInv env a sec false false (base_layers env) := by
  refine ⟨?_, ?_, base_layers_nodup env, by simp, fun l hl => Or.inl hl,
    fun l hl => hl⟩
  · intro l hl
    simp [core_layers_not_mem_base env a sec l hl]
  · simp [(tree_data_fetcher_not_mem env a sec
      env.config.remote.diamond_proxy_addr).1]

/-- Registering the core expansion on a state without it re-establishes the loop
invariant with `coreIn` set. -/
theorem loop_inv_add_core (env : Env) (a : Nat) (sec : Option Nat) (tfIn : Bool)
    (ls : List Layer) (h : LoopInv env a sec false tfIn ls) :
    LoopInv env a sec true tfIn (ls ++ core_layers env a sec) := by
  obtain ⟨hcore, htdf, hnd, hlen, hclo, hbase⟩ := h
  have hnotin : ∀ l ∈ core_layers env a sec, l ∉ ls := by
    intro l hl hm
    simpa using (hcore l hl).mp hm
  refine ⟨?_, ?_, ?_, ?_, ?_, ?_⟩
  · intro l hl
    simp [List.mem_append, Or.inr hl]
  · have hno : Layer.treeDataFetcher env.config.remote.diamond_proxy_addr ∉
        core_layers env a sec :=
      (tree_data_fetcher_not_mem env a sec env.config.remote.diamond_proxy_addr).2
    simp [List.mem_append, hno, htdf]
  · rw [List.nodup_append]
    exact ⟨hnd, core_layers_nodup env a sec, fun x hx hx2 => hnotin x hx2 hx⟩
  · simp only [List.length_append, hlen]
    simp [Nat.add_assoc, Nat.add_comm (cond tfIn 1 0)]
  · intro l hl
    rcases List.mem_append.mp hl with hl | hl
    · exact hclo l hl
    · exact Or.inr (Or.inl hl)
  · intro l hl
    exact List.mem_append_left _ (hbase l hl)

/-- Registering the tree-data-fetcher layer on a state without it re-establishes the
loop invariant with `tfIn` set. -/
theorem loop_inv_add_tdf (env : Env) (a : Nat) (sec : Option Nat) (coreIn : Bool)
    (ls : List Layer) (h : LoopInv env a sec coreIn false ls) :
    LoopInv env a sec coreIn true
      (ls ++ [Layer.treeDataFetcher env.config.remote.diamond_proxy_addr]) := by
  obtain ⟨hcore, htdf, hnd, hlen, hclo, hbase⟩ := h
  have htno : Layer.treeDataFetcher env.config.remote.diamond_proxy_addr ∉ ls := by
    intro hm
    simpa using htdf.mp hm
  refine ⟨?_, ?_, ?_, ?_, ?_, ?_⟩
  · intro l hl
    have hlne : l ≠ Layer.treeDataFetcher env.config.remote.diamond_proxy_addr := by
      intro he
      exact (tree_data_fetcher_not_mem env a sec
        env.config.remote.diamond_proxy_addr).2 (he ▸ hl)
    simp [List.mem_append, hlne, hcore l hl]
  · simp
  · simpa [List.nodup_append] using ⟨hnd, htno⟩
  · simp only [List.length_append, hlen]
    simp
  · intro l hl
    rcases List.mem_append.mp hl with hl | hl
    · exact hclo l hl
    · exact Or.inr (Or.inr (by simpa using hl))
  · intro l hl
    exact List.mem_append_left _ (hbase l hl)

/-- Two layer lists satisfying the loop invariant with the same flags are
permutations of each other (they are duplicate-free with the same membership). -/
theorem loop_inv_perm (env : Env) (a : Nat) (sec : Option Nat)
    (coreIn tfIn : Bool) (L1 L2 : List Layer)
    (h1 : LoopInv env a sec coreIn tfIn L1)
    (h2 : LoopInv env a sec coreIn tfIn L2) : List.Perm L1 L2 := by
  obtain ⟨hcore1, htdf1, hnd1, _, hclo1, hbase1⟩ := h1
  obtain ⟨hcore2, htdf2, hnd2, _, hclo2, hbase2⟩ := h2
  rw [List.perm_ext_iff_of_nodup hnd1 hnd2]
  intro x
  constructor
  · intro hx
    rcases hclo1 x hx with h | h | h
    · exact hbase2 x h
    · exact (hcore2 x h).mpr ((hcore1 x h).mp hx)
    · exact h ▸ htdf2.mpr (htdf1.mp (h ▸ hx))
  · intro hx
    rcases hclo2 x hx with h | h | h
    · exact hbase1 x h
    · exact (hcore1 x h).mpr ((hcore2 x h).mp hx)
    · exact h ▸ htdf1.mpr (htdf2.mp (h ▸ hx))

/-- Main loop lemma: running the component loop over `core`/`tree_fetcher` entries
from an invariant state succeeds and re-establishes the invariant, with the flags
updated by membership. -/
theorem run_components_loop_inv (env : Env) (a : Nat) (sec : Option Nat)
    (hb : env.config.remote.l2_shared_bridge_addr = some a)
    (hs : env.read_consensus_secrets = Except.ok sec) (s : List Component) :
    ∀ l ls coreIn tfIn,
      (∀ c ∈ l, c = .treeFetcher ∨ c = .core) →
      LoopInv env a sec coreIn tfIn ls →
      ∃ ls', run_components env s l ls = .ok ls' ∧
        LoopInv env a sec (coreIn || decide (Component.core ∈ l))
          (tfIn || decide (Component.treeFetcher ∈ l)) ls' := by
  intro l
  induction l with
  | nil =>
    intro ls coreIn tfIn _ hinv
    exact ⟨ls, rfl, by simpa using hinv⟩
  | cons c rest ih =>
    intro ls coreIn tfIn hall hinv
    have hrest : ∀ c ∈ rest, c = .treeFetcher ∨ c = .core :=
      fun c hc => hall c (List.mem_cons_of_mem _ hc)
    rcases hall c (by simp) with rfl | rfl
    · cases htf : tfIn with
      | false =>
        have htno : Layer.treeDataFetcher env.config.remote.diamond_proxy_addr ∉
            ls := by
          intro hm
          simpa [htf] using hinv.2.1.mp hm
        have hexp := expand_tree_fetcher_eq env s ls htno
        have hinv2 := loop_inv_add_tdf env a sec coreIn ls (htf ▸ hinv)
        obtain ⟨ls', hrun, hinv'⟩ := ih _ coreIn true hrest hinv2
        refine ⟨ls', ?_, ?_⟩
        · simp [run_components, hexp, BuildResult.andThen, hrun]
        · simpa [List.mem_cons] using hinv'
      | true =>
        have htin : Layer.treeDataFetcher env.config.remote.diamond_proxy_addr ∈
            ls := hinv.2.1.mpr htf
        have hexp := expand_tree_fetcher_dup env s ls htin
        obtain ⟨ls', hrun, hinv'⟩ := ih _ coreIn true hrest (htf ▸ hinv)
        refine ⟨ls', ?_, ?_⟩
        · simp [run_components, hexp, BuildResult.andThen, hrun]
        · simpa [List.mem_cons] using hinv'
    · cases hcr : coreIn with
      | false =>
        have hdisj : ∀ l ∈ core_layers env a sec, l ∉ ls := by
          intro l hl hm
          simpa [hcr] using (hinv.1 l hl).mp hm
        have hexp := expand_core_eq_of_disjoint env s ls a sec hb hs hdisj
        have hinv2 := loop_inv_add_core env a sec tfIn ls (hcr ▸ hinv)
        obtain ⟨ls', hrun, hinv'⟩ := ih _ true tfIn hrest hinv2
        refine ⟨ls', ?_, ?_⟩
        · simp [run_components, hexp, BuildResult.andThen, hrun]
        · simpa [List.mem_cons] using hinv'
      | true =>
        have hsub : ∀ l ∈ core_layers env a sec, l ∈ ls :=
          fun l hl => (hinv.1 l hl).mpr hcr
        have hexp := expand_core_eq_of_subset env s ls a sec hb hs hsub
        obtain ⟨ls', hrun, hinv'⟩ := ih _ true tfIn hrest (hcr ▸ hinv)
        refine ⟨ls', ?_, ?_⟩
        · simp [run_components, hexp, BuildResult.andThen, hrun]
        · simpa [List.mem_cons] using hinv'

/-- If `Core` is not among the sorted components, the loop fails with the tree/core
co-requirement error as soon as it reaches `Tree`, with the layers registered so far
extended only on the right. -/
theorem run_components_err_tree (env : Env) (s : List Component)
    (hcore : Component.core ∉ s) (hts : Component.tree ∈ s) :
    ∀ l ls, Component.tree ∈ l →
      (∀ c ∈ l, c = .tree ∨ c = .treeApi ∨ c = .treeFetcher) →
      ∃ t, run_components env s l ls =
        .err (ls ++ t) "Tree must run on the same machine as Core" := by
  intro l
  induction l with
  | nil => intro ls h; exact absurd h (List.not_mem_nil _)
  | cons c rest ih =>
    intro ls hmem hall
    rcases hall c (by simp) with rfl | rfl | rfl
    · refine ⟨[], ?_⟩
      simp [run_components, expand_component, hcore, BuildResult.andThen]
    · have htr : Component.tree ∈ rest := by
        rcases List.mem_cons.mp hmem with h | h
        · exact absurd h (by simp)
        · exact h
      obtain ⟨t, ht⟩ := ih ls htr (fun c hc => hall c (List.mem_cons_of_mem _ hc))
      refine ⟨t, ?_⟩
      simp [run_components, expand_component, hts, BuildResult.andThen, ht]
    · have htr : Component.tree ∈ rest := by
        rcases List.mem_cons.mp hmem with h | h
        · exact absurd h (by simp)
        · exact h
      obtain ⟨t0, h0⟩ := expand_tree_fetcher_ok env s ls
      obtain ⟨t1, h1⟩ :=
        ih (ls ++ t0) htr (fun c hc => hall c (List.mem_cons_of_mem _ hc))
      exact ⟨t0 ++ t1, by
        simp [run_components, h0, BuildResult.andThen, h1, List.append_assoc]⟩

/-- If `Tree` is not among the sorted components, a loop over `tree_api`,
`tree_fetcher` and `core` entries fails with the tree-api error as soon as it
reaches `TreeApi` (assuming the core expansion's preconditions hold). -/
theorem run_components_err_tree_api (env : Env) (s : List Component)
    (htns : Component.tree ∉ s) (a : Nat) (sec : Option Nat)
    (hb : env.config.remote.l2_shared_bridge_addr = some a)
    (hs : env.read_consensus_secrets = Except.ok sec) :
    ∀ l ls, Component.treeApi ∈ l →
      (∀ c ∈ l, c = .treeApi ∨ c = .treeFetcher ∨ c = .core) →
      ∃ t, run_components env s l ls =
        .err (ls ++ t) "Merkle tree API cannot be started without a tree component" := by
  intro l
  induction l with
  | nil => intro ls h; exact absurd h (List.not_mem_nil _)
  | cons c rest ih =>
    intro ls hmem hall
    rcases hall c (by simp) with rfl | rfl | rfl
    · refine ⟨[], ?_⟩
      simp [run_components, expand_component, htns, BuildResult.andThen]
    · have htr : Component.treeApi ∈ rest := by
        rcases List.mem_cons.mp hmem with h | h
        · exact absurd h (by simp)
        · exact h
      obtain ⟨t0, h0⟩ := expand_tree_fetcher_ok env s ls
      obtain ⟨t1, h1⟩ :=
        ih (ls ++ t0) htr (fun c hc => hall c (List.mem_cons_of_mem _ hc))
      exact ⟨t0 ++ t1, by
        simp [run_components, h0, BuildResult.andThen, h1, List.append_assoc]⟩
    · have htr : Component.treeApi ∈ rest := by
        rcases List.mem_cons.mp hmem with h | h
        · exact absurd h (by simp)
        · exact h
      obtain ⟨t0, h0⟩ := expand_core_ok env s ls a sec hb hs
      obtain ⟨t1, h1⟩ :=
        ih (ls ++ t0) htr (fun c hc => hall c (List.mem_cons_of_mem _ hc))
      exact ⟨t0 ++ t1, by
        simp [run_components, h0, BuildResult.andThen, h1, List.append_assoc]⟩

/-- A loop over `tree_fetcher` and `core` entries only (the two producer components
whose expansion is implemented) succeeds, extending the layers on the right
(assuming the core expansion's preconditions hold). -/
theorem run_components_ok_producers (env : Env) (s : List Component)
    (a : Nat) (sec : Option Nat)
    (hb : env.config.remote.l2_shared_bridge_addr = some a)
    (hs : env.read_consensus_secrets = Except.ok sec) :
    ∀ l ls, (∀ c ∈ l, c = .treeFetcher ∨ c = .core) →
      ∃ t, run_components env s l ls = .ok (ls ++ t) := by
  intro l
  induction l with
  | nil => intro ls _; exact ⟨[], by simp [run_components]⟩
  | cons c rest ih =>
    intro ls hall
    rcases hall c (by simp) with rfl | rfl
    · obtain ⟨t0, h0⟩ := expand_tree_fetcher_ok env s ls
      obtain ⟨t1, h1⟩ := ih (ls ++ t0) (fun c hc => hall c (List.mem_cons_of_mem _ hc))
      exact ⟨t0 ++ t1, by
        simp [run_components, h0, BuildResult.andThen, h1, List.append_assoc]⟩
    · obtain ⟨t0, h0⟩ := expand_core_ok env s ls a sec hb hs
      obtain ⟨t1, h1⟩ := ih (ls ++ t0) (fun c hc => hall c (List.mem_cons_of_mem _ hc))
      exact ⟨t0 ++ t1, by
        simp [run_components, h0, BuildResult.andThen, h1, List.append_assoc]⟩

/-- If both `Tree` and `Core` are among the sorted components, a loop over non-API
entries panics with the `todo!()` message as soon as it reaches `Tree` (assuming the
core expansion's preconditions hold). -/
theorem run_components_panic_tree (env : Env) (s : List Component)
    (hcs : Component.core ∈ s) (hts : Component.tree ∈ s)
    (a : Nat) (sec : Option Nat)
    (hb : env.config.remote.l2_shared_bridge_addr = some a)
    (hs : env.read_consensus_secrets = Except.ok sec) :
    ∀ l ls, Component.tree ∈ l →
      (∀ c ∈ l, c = .tree ∨ c = .treeApi ∨ c = .treeFetcher ∨ c = .core) →
      ∃ t, run_components env s l ls = .panicked (ls ++ t) "not yet implemented" := by
  intro l
  induction l with
  | nil => intro ls h; exact absurd h (List.not_mem_nil _)
  | cons c rest ih =>
    intro ls hmem hall
    rcases hall c (by simp) with rfl | rfl | rfl | rfl
    · refine ⟨[], ?_⟩
      simp [run_components, expand_component, hcs, BuildResult.andThen]
    · have htr : Component.tree ∈ rest := by
        rcases List.mem_cons.mp hmem with h | h
        · exact absurd h (by simp)
        · exact h
      obtain ⟨t, ht⟩ := ih ls htr (fun c hc => hall c (List.mem_cons_of_mem _ hc))
      refine ⟨t, ?_⟩
      simp [run_components, expand_component, hts, BuildResult.andThen, ht]
    · have htr : Component.tree ∈ rest := by
        rcases List.mem_cons.mp hmem with h | h
        · exact absurd h (by simp)
        · exact h
      obtain ⟨t0, h0⟩ := expand_tree_fetcher_ok env s ls
      obtain ⟨t1, h1⟩ :=
        ih (ls ++ t0) htr (fun c hc => hall c (List.mem_cons_of_mem _ hc))
      exact ⟨t0 ++ t1, by
        simp [run_components, h0, BuildResult.andThen, h1, List.append_assoc]⟩
    · have htr : Component.tree ∈ rest := by
        rcases List.mem_cons.mp hmem with h | h
        · exact absurd h (by simp)
        · exact h
      obtain ⟨t0, h0⟩ := expand_core_ok env s ls a sec hb hs
      obtain ⟨t1, h1⟩ :=
        ih (ls ++ t0) htr (fun c hc => hall c (List.mem_cons_of_mem _ hc))
      exact ⟨t0 ++ t1, by
        simp [run_components, h0, BuildResult.andThen, h1, List.append_assoc]⟩

/-- With the bridge address absent, a loop over `tree_fetcher` and `core` entries
panics with the `expect` message as soon as it reaches `Core`. -/
theorem run_components_panic_bridge (env : Env) (s : List Component)
    (hb : env.config.remote.l2_shared_bridge_addr = none) :
    ∀ l ls, Component.core ∈ l →
      (∀ c ∈ l, c = .treeFetcher ∨ c = .core) →
      ∃ t, run_components env s l ls =
        .panicked (ls ++ t) "L2 shared bridge address is not set" := by
  intro l
  induction l with
  | nil => intro ls h; exact absurd h (List.not_mem_nil _)
  | cons c rest ih =>
    intro ls hmem hall
    rcases hall c (by simp) with rfl | rfl
    · have hcr : Component.core ∈ rest := by
        rcases List.mem_cons.mp hmem with h | h
        · exact absurd h (by simp)
        · exact h
      obtain ⟨t0, h0⟩ := expand_tree_fetcher_ok env s ls
      obtain ⟨t1, h1⟩ :=
        ih (ls ++ t0) hcr (fun c hc => hall c (List.mem_cons_of_mem _ hc))
      exact ⟨t0 ++ t1, by
        simp [run_components, h0, BuildResult.andThen, h1, List.append_assoc]⟩
    · obtain ⟨t0, h0⟩ := expand_core_bridge_panic env s ls hb
      exact ⟨t0, by simp [run_components, h0, BuildResult.andThen]⟩

/-- A loop whose first entry is an API component panics immediately with the
`todo!()` message. -/
theorem run_components_panic_api (env : Env) (s : List Component) (c : Component)
    (rest : List Component) (ls : List Layer) (hc : c = .httpApi ∨ c = .wsApi) :
    run_components env s (c :: rest) ls = .panicked ls "not yet implemented" := by
  rcases hc with rfl | rfl <;>
    simp [run_components, expand_component, BuildResult.andThen]

/-- `build` splits into the base phase followed by the loop over the key-0 part and
then the key-1 part of the sorted components. -/
theorem build_eq_andThen_parts (f : List Component → List Component)
    (hf : sort_unstable_spec f) (env : Env) (comps : List Component) :
    build f env comps =
      (run_components env
          ((f comps).filter (fun c => component_key c == 0) ++
            (f comps).filter (fun c => component_key c == 1))
          ((f comps).filter (fun c => component_key c == 0))
          (base_layers env)).andThen
        (run_components env
          ((f comps).filter (fun c => component_key c == 0) ++
            (f comps).filter (fun c => component_key c == 1))
          ((f comps).filter (fun c => component_key c == 1))) := by
  rw [build_eq_run]
  conv_lhs => rw [sorted_eq_filter_append (f comps) (hf comps).2.1]
  rw [run_components_append]

/-- Membership in the partitioned sorted component list agrees with membership in
the input. -/
theorem mem_parts_iff (f : List Component → List Component)
    (hf : sort_unstable_spec f) {c : Component} {comps : List Component} :
    c ∈ (f comps).filter (fun c => component_key c == 0) ++
        (f comps).filter (fun c => component_key c == 1) ↔ c ∈ comps := by
  rw [← sorted_eq_filter_append (f comps) (hf comps).2.1]
  exact (hf comps).1.mem_iff

/-- For a tree-without-core component set, `build` fails with the tree/core error
and the layers registered at the failure extend the base and precondition layers. -/
theorem build_err_tree_aux (f : List Component → List Component)
    (hf : sort_unstable_spec f) (env : Env) (comps : List Component)
    (htree : Component.tree ∈ comps) (hcore : Component.core ∉ comps) :
    ∃ t, build f env comps =
      .err (base_layers env ++ t) "Tree must run on the same machine as Core" := by
  have hcs : Component.core ∉
      (f comps).filter (fun c => component_key c == 0) ++
        (f comps).filter (fun c => component_key c == 1) :=
    fun h => hcore ((mem_parts_iff f hf).mp h)
  have hts : Component.tree ∈
      (f comps).filter (fun c => component_key c == 0) ++
        (f comps).filter (fun c => component_key c == 1) :=
    (mem_parts_iff f hf).mpr htree
  have htz : Component.tree ∈ (f comps).filter (fun c => component_key c == 0) :=
    List.mem_filter.mpr ⟨(hf comps).1.mem_iff.mpr htree, by simp [component_key]⟩
  have hall : ∀ c ∈ (f comps).filter (fun c => component_key c == 0),
      c = .tree ∨ c = .treeApi ∨ c = .treeFetcher := by
    intro c hc
    have hk : component_key c = 0 := by simpa using List.of_mem_filter hc
    have hcm : c ∈ comps := (hf comps).1.mem_iff.mp (List.mem_of_mem_filter hc)
    rcases (component_key_eq_zero_iff c).mp hk with h | h | h | h
    · exact Or.inl h
    · exact Or.inr (Or.inl h)
    · exact Or.inr (Or.inr h)
    · exact absurd (h ▸ hcm) hcore
  obtain ⟨t, ht⟩ := run_components_err_tree env _ hcs hts
    ((f comps).filter (fun c => component_key c == 0)) (base_layers env) htz hall
  exact ⟨t, by rw [build_eq_andThen_parts f hf, ht]; rfl⟩

/-- For a tree-api-without-tree component set (under the core expansion's
configuration preconditions), `build` fails with the tree-api error and the layers
registered at the failure extend the base and precondition layers. -/
theorem build_err_tree_api_aux (f : List Component → List Component)
    (hf : sort_unstable_spec f) (env : Env) (comps : List Component)
    (hta : Component.treeApi ∈ comps) (htree : Component.tree ∉ comps)
    (a : Nat) (sec : Option Nat)
    (hb : env.config.remote.l2_shared_bridge_addr = some a)
    (hs : env.read_consensus_secrets = Except.ok sec) :
    ∃ t, build f env comps = .err (base_layers env ++ t)
      "Merkle tree API cannot be started without a tree component" := by
  have htns : Component.tree ∉
      (f comps).filter (fun c => component_key c == 0) ++
        (f comps).filter (fun c => component_key c == 1) :=
    fun h => htree ((mem_parts_iff f hf).mp h)
  have htz : Component.treeApi ∈ (f comps).filter (fun c => component_key c == 0) :=
    List.mem_filter.mpr ⟨(hf comps).1.mem_iff.mpr hta, by simp [component_key]⟩
  have hall : ∀ c ∈ (f comps).filter (fun c => component_key c == 0),
      c = .treeApi ∨ c = .treeFetcher ∨ c = .core := by
    intro c hc
    have hk : component_key c = 0 := by simpa using List.of_mem_filter hc
    have hcm : c ∈ comps := (hf comps).1.mem_iff.mp (List.mem_of_mem_filter hc)
    rcases (component_key_eq_zero_iff c).mp hk with h | h | h | h
    · exact absurd (h ▸ hcm) htree
    · exact Or.inl h
    · exact Or.inr (Or.inl h)
    · exact Or.inr (Or.inr h)
  obtain ⟨t, ht⟩ := run_components_err_tree_api env _ htns a sec hb hs
    ((f comps).filter (fun c => component_key c == 0)) (base_layers env) htz hall
  exact ⟨t, by rw [build_eq_andThen_parts f hf, ht]; rfl⟩

/-- C2 counterexample: the `sort_unstable_by_key` contract does not promise the
original relative order of equal-key components — `sort_by_key_rev` satisfies the
contract, yet on a 21-element input (beyond the insertion-sort threshold) it does
not emit the non-API components in their original relative order. -/
theorem C2_stable_partition_cex :
    sort_unstable_spec sort_by_key_rev ∧
    sort_by_key_rev (Component.treeFetcher :: List.replicate 20 Component.core) ≠
      (Component.treeFetcher ::
          List.replicate 20 Component.core).filter
          (fun c => component_key c == 0) ++
        (Component.treeFetcher ::
            List.replicate 20 Component.core).filter
          (fun c => component_key c == 1) :=
  ⟨sort_by_key_rev_spec, by decide⟩

/-- C2 (amended): for every input component list, the scheduler's sort produces a
permutation of the input partitioned by the key: a permutation of the non-API
components first (their original relative order guaranteed only on the standard
library's short-slice insertion-sort path, of length at most 20, since the unstable
sort promises no stability in general), followed by the key-1 components —
`http_api` and `ws_api` exactly — strictly after every other requested component,
regardless of input order. -/
theorem C2_scheduler_sort_partition (f : List Component → List Component)
    (hf : sort_unstable_spec f) (l : List Component) :
    List.Perm (f l) l ∧
    f l = (f l).filter (fun c => component_key c == 0) ++
      (f l).filter (fun c => component_key c == 1) ∧
    List.Perm ((f l).filter (fun c => component_key c == 0))
      (l.filter (fun c => component_key c == 0)) ∧
    List.Perm ((f l).filter (fun c => component_key c == 1))
      (l.filter (fun c => component_key c == 1)) ∧
    (∀ c : Component, component_key c = 1 ↔ (c = .httpApi ∨ c = .wsApi)) ∧
    (l.length ≤ 20 →
      f l = l.filter (fun c => component_key c == 0) ++
        l.filter (fun c => component_key c == 1)) := by
  obtain ⟨hperm, hsorted, hsmall⟩ := hf l
  refine ⟨hperm, sorted_eq_filter_append _ hsorted, hperm.filter _, hperm.filter _,
    component_key_eq_one_iff, fun hlen => ?_⟩
  rw [hsmall hlen, sort_by_key_stable_eq_filter]

/-- Witness for the amended C2 at the stable conforming sort and a concrete list. -/
theorem C2_scheduler_sort_partition_witness :
    List.Perm (sort_by_key_stable
      [Component.httpApi, Component.core, Component.wsApi, Component.treeFetcher])
      [Component.httpApi, Component.core, Component.wsApi, Component.treeFetcher] ∧
    sort_by_key_stable
        [Component.httpApi, Component.core, Component.wsApi,
          Component.treeFetcher] =
      (sort_by_key_stable [Component.httpApi, Component.core, Component.wsApi,
            Component.treeFetcher]).filter (fun c => component_key c == 0) ++
        (sort_by_key_stable [Component.httpApi, Component.core, Component.wsApi,
            Component.treeFetcher]).filter (fun c => component_key c == 1) ∧
    List.Perm ((sort_by_key_stable [Component.httpApi, Component.core,
          Component.wsApi, Component.treeFetcher]).filter
          (fun c => component_key c == 0))
      ([Component.httpApi, Component.core, Component.wsApi,
          Component.treeFetcher].filter (fun c => component_key c == 0)) ∧
    List.Perm ((sort_by_key_stable [Component.httpApi, Component.core,
          Component.wsApi, Component.treeFetcher]).filter
          (fun c => component_key c == 1))
      ([Component.httpApi, Component.core, Component.wsApi,
          Component.treeFetcher].filter (fun c => component_key c == 1)) ∧
    (∀ c : Component, component_key c = 1 ↔ (c = .httpApi ∨ c = .wsApi)) ∧
    ([Component.httpApi, Component.core, Component.wsApi,
        Component.treeFetcher].length ≤ 20 →
      sort_by_key_stable [Component.httpApi, Component.core, Component.wsApi,
          Component.treeFetcher] =
        [Component.httpApi, Component.core, Component.wsApi,
            Component.treeFetcher].filter (fun c => component_key c == 0) ++
          [Component.httpApi, Component.core, Component.wsApi,
              Component.treeFetcher].filter (fun c => component_key c == 1)) :=
  C2_scheduler_sort_partition sort_by_key_stable sort_by_key_stable_spec
    [Component.httpApi, Component.core, Component.wsApi, Component.treeFetcher]

/-- C8: the build is a deterministic function of its inputs — the sort function, the
configuration (environment, including the secret-read outcome) and the component
list — so two invocations produce identical outcomes, hence layer sequences of
identical composition and order. -/
theorem C8_build_deterministic (f : List Component → List Component) (env : Env)
    (components : List Component)
    (r₁ r₂ : BuildResult) (h₁ : build f env components = r₁)
    (h₂ : build f env components = r₂) : r₁ = r₂ := by
  rw [← h₁, ← h₂]

/-- Witness for C8 at a concrete sort, environment and component list. -/
theorem C8_build_deterministic_witness :
    build sort_by_key_stable sampleEnv [Component.core, Component.treeFetcher] =
      build sort_by_key_stable sampleEnv [Component.core, Component.treeFetcher] :=
  C8_build_deterministic sort_by_key_stable sampleEnv
    [Component.core, Component.treeFetcher] _ _ rfl rfl

/-- C4: for every component set containing `tree` but not `core`, `build` returns an
error (not success) whose message names the missing co-requirement that tree must
run together with core. -/
theorem C4_tree_requires_core (f : List Component → List Component)
    (hf : sort_unstable_spec f) (env : Env) (comps : List Component)
    (htree : Component.tree ∈ comps) (hcore : Component.core ∉ comps) :
    ∃ L, build f env comps =
      .err L "Tree must run on the same machine as Core" := by
  obtain ⟨t, ht⟩ := build_err_tree_aux f hf env comps htree hcore
  exact ⟨base_layers env ++ t, ht⟩

/-- Witness for C4 at the component set `[tree]`. -/
theorem C4_tree_requires_core_witness :
    Component.tree ∈ ([Component.tree] : List Component) ∧
    Component.core ∉ ([Component.tree] : List Component) ∧
    ∃ L, build sort_by_key_stable sampleEnv [Component.tree] =
      .err L "Tree must run on the same machine as Core" :=
  ⟨by decide, by decide,
    C4_tree_requires_core sort_by_key_stable sort_by_key_stable_spec sampleEnv
      [Component.tree] (by decide) (by decide)⟩

/-- C1 counterexample: the rejected component set `[tree]` does fail dependency
validation, but not before layer registration — at the failure the builder has
already registered a non-empty layer sequence (the base and precondition layers). -/
theorem C1_layers_before_validation_cex :
    (build sort_by_key_stable sampleEnv [Component.tree]).isErr = true ∧
    (build sort_by_key_stable sampleEnv [Component.tree]).failMsg =
      some "Tree must run on the same machine as Core" ∧
    (build sort_by_key_stable sampleEnv [Component.tree]).layers ≠ [] := by decide

/-- C1 (amended): for every component set failing dependency validation — `tree`
selected without `core`, or `tree_api` selected without `tree` (the latter under
the core expansion's configuration preconditions: bridge address set, consensus
secrets readable) — `build` fails with that validation error, but validation does
not precede layer registration: at the failure the non-empty base and precondition
layers, and any layers of components scheduled earlier, have already been
registered (the registered layers extend `base_layers` on the right). -/
theorem C1_validation_after_base_layers (f : List Component → List Component)
    (hf : sort_unstable_spec f) (env : Env) (comps : List Component) :
    ((Component.tree ∈ comps ∧ Component.core ∉ comps) →
      ∃ t, build f env comps =
        .err (base_layers env ++ t) "Tree must run on the same machine as Core") ∧
    (∀ a sec, Component.treeApi ∈ comps → Component.tree ∉ comps →
      env.config.remote.l2_shared_bridge_addr = some a →
      env.read_consensus_secrets = Except.ok sec →
      ∃ t, build f env comps = .err (base_layers env ++ t)
        "Merkle tree API cannot be started without a tree component") ∧
    base_layers env ≠ [] :=
  ⟨fun h => build_err_tree_aux f hf env comps h.1 h.2,
    fun a sec h1 h2 hb hs => build_err_tree_api_aux f hf env comps h1 h2 a sec hb hs,
    base_layers_ne_nil env⟩

/-- Witness for the amended C1 at the component set `[tree]`. -/
theorem C1_validation_after_base_layers_witness :
    ((Component.tree ∈ [Component.tree] ∧ Component.core ∉ [Component.tree]) →
      ∃ t, build sort_by_key_stable sampleEnv [Component.tree] =
        .err (base_layers sampleEnv ++ t)
          "Tree must run on the same machine as Core") ∧
    (∀ a sec, Component.treeApi ∈ [Component.tree] →
      Component.tree ∉ [Component.tree] →
      sampleEnv.config.remote.l2_shared_bridge_addr = some a →
      sampleEnv.read_consensus_secrets = Except.ok sec →
      ∃ t, build sort_by_key_stable sampleEnv [Component.tree] =
        .err (base_layers sampleEnv ++ t)
          "Merkle tree API cannot be started without a tree component") ∧
    base_layers sampleEnv ≠ [] :=
  C1_validation_after_base_layers sort_by_key_stable sort_by_key_stable_spec
    sampleEnv [Component.tree]

/-- C5: for every component set containing `tree_api` but not `tree` (under a
configuration whose bridge address is set and whose consensus secrets load, so that
a `core` entry scheduled earlier cannot fail first), `build` fails with the distinct
tree-api error naming the requirement; and whenever `tree` is present in the sorted
component vector, the `tree_api` expansion is a no-op contributing no layers. -/
theorem C5_tree_api_requires_tree (f : List Component → List Component)
    (hf : sort_unstable_spec f) (env : Env) (comps : List Component)
    (hta : Component.treeApi ∈ comps) (htree : Component.tree ∉ comps)
    (a : Nat) (sec : Option Nat)
    (hb : env.config.remote.l2_shared_bridge_addr = some a)
    (hs : env.read_consensus_secrets = Except.ok sec) :
    (∃ L, build f env comps =
      .err L "Merkle tree API cannot be started without a tree component") ∧
    (∀ s ls, Component.tree ∈ s → expand_component env s ls .treeApi = .ok ls) := by
  constructor
  · obtain ⟨t, ht⟩ := build_err_tree_api_aux f hf env comps hta htree a sec hb hs
    exact ⟨base_layers env ++ t, ht⟩
  · intro s ls h
    simp [expand_component, h]

/-- Witness for C5 at the component set `[tree_api]`. -/
theorem C5_tree_api_requires_tree_witness :
    (∃ L, build sort_by_key_stable sampleEnv [Component.treeApi] =
      .err L "Merkle tree API cannot be started without a tree component") ∧
    (∀ s ls, Component.tree ∈ s →
      expand_component sampleEnv s ls .treeApi = .ok ls) :=
  C5_tree_api_requires_tree sort_by_key_stable sort_by_key_stable_spec sampleEnv
    [Component.treeApi] (by decide) (by decide) 4660 none (by decide) rfl

/-- C9 counterexample: the component set `[http_api, tree_api]` contains `http_api`,
yet `build` does not panic — the `tree_api` validation error is returned gracefully
before the API component is reached. -/
theorem C9_api_panics_cex :
    (build sort_by_key_stable sampleEnv
      [Component.httpApi, Component.treeApi]).isPanicked = false ∧
    (build sort_by_key_stable sampleEnv
      [Component.httpApi, Component.treeApi]).isErr = true := by
  decide

/-- C9 (amended): for every component set containing `http_api`, `ws_api`, or `tree`,
provided no earlier-scheduled component fails first (every `tree` is accompanied by
`core`, every `tree_api` by `tree`, the bridge address is set, and consensus secrets
load), `build` panics via the `todo!()` placeholder instead of returning a graceful
error: the build function is partial on these inputs. -/
theorem C9_unimplemented_components_panic (f : List Component → List Component)
    (hf : sort_unstable_spec f) (env : Env) (comps : List Component)
    (hdep1 : Component.tree ∈ comps → Component.core ∈ comps)
    (hdep2 : Component.treeApi ∈ comps → Component.tree ∈ comps)
    (a : Nat) (sec : Option Nat)
    (hb : env.config.remote.l2_shared_bridge_addr = some a)
    (hs : env.read_consensus_secrets = Except.ok sec)
    (htrig : Component.httpApi ∈ comps ∨ Component.wsApi ∈ comps ∨
      Component.tree ∈ comps) :
    ∃ L, build f env comps = .panicked L "not yet implemented" := by
  by_cases htree : Component.tree ∈ comps
  · have hcs : Component.core ∈
        (f comps).filter (fun c => component_key c == 0) ++
          (f comps).filter (fun c => component_key c == 1) :=
      (mem_parts_iff f hf).mpr (hdep1 htree)
    have hts : Component.tree ∈
        (f comps).filter (fun c => component_key c == 0) ++
          (f comps).filter (fun c => component_key c == 1) :=
      (mem_parts_iff f hf).mpr htree
    have htz : Component.tree ∈ (f comps).filter (fun c => component_key c == 0) :=
      List.mem_filter.mpr ⟨(hf comps).1.mem_iff.mpr htree, by simp [component_key]⟩
    have hall : ∀ c ∈ (f comps).filter (fun c => component_key c == 0),
        c = .tree ∨ c = .treeApi ∨ c = .treeFetcher ∨ c = .core := by
      intro c hc
      exact (component_key_eq_zero_iff c).mp (by simpa using List.of_mem_filter hc)
    obtain ⟨t, ht⟩ := run_components_panic_tree env _ hcs hts a sec hb hs
      ((f comps).filter (fun c => component_key c == 0)) (base_layers env) htz hall
    exact ⟨base_layers env ++ t, by rw [build_eq_andThen_parts f hf, ht]; rfl⟩
  · have hta : Component.treeApi ∉ comps := fun h => htree (hdep2 h)
    have hall : ∀ c ∈ (f comps).filter (fun c => component_key c == 0),
        c = .treeFetcher ∨ c = .core := by
      intro c hc
      have hk : component_key c = 0 := by simpa using List.of_mem_filter hc
      have hcm : c ∈ comps := (hf comps).1.mem_iff.mp (List.mem_of_mem_filter hc)
      rcases (component_key_eq_zero_iff c).mp hk with h | h | h | h
      · exact absurd (h ▸ hcm) htree
      · exact absurd (h ▸ hcm) hta
      · exact Or.inl h
      · exact Or.inr h
    obtain ⟨t, ht⟩ := run_components_ok_producers env
      ((f comps).filter (fun c => component_key c == 0) ++
        (f comps).filter (fun c => component_key c == 1)) a sec hb hs
      ((f comps).filter (fun c => component_key c == 0)) (base_layers env) hall
    have hapi : Component.httpApi ∈ comps ∨ Component.wsApi ∈ comps := by
      rcases htrig with h | h | h
      · exact Or.inl h
      · exact Or.inr h
      · exact absurd h htree
    have hone : ∃ c, c ∈ (f comps).filter (fun c => component_key c == 1) := by
      rcases hapi with h | h
      · exact ⟨_, List.mem_filter.mpr ⟨(hf comps).1.mem_iff.mpr h,
          by simp [component_key]⟩⟩
      · exact ⟨_, List.mem_filter.mpr ⟨(hf comps).1.mem_iff.mpr h,
          by simp [component_key]⟩⟩
    cases ho : (f comps).filter (fun c => component_key c == 1) with
    | nil =>
      obtain ⟨c, hc⟩ := hone
      rw [ho] at hc
      exact absurd hc (List.not_mem_nil c)
    | cons oc orest =>
      have hoc : oc = .httpApi ∨ oc = .wsApi := by
        have : oc ∈ (f comps).filter (fun c => component_key c == 1) := by
          rw [ho]; exact List.mem_cons_self oc orest
        exact (component_key_eq_one_iff oc).mp (by simpa using List.of_mem_filter this)
      refine ⟨base_layers env ++ t, ?_⟩
      rw [build_eq_andThen_parts f hf, ht, ho]
      show run_components env _ (oc :: orest) (base_layers env ++ t) = _
      rw [run_components_panic_api env _ oc orest (base_layers env ++ t) hoc]

/-- Witness for the amended C9 at the component set `[http_api]`. -/
theorem C9_unimplemented_components_panic_witness :
    ∃ L, build sort_by_key_stable sampleEnv [Component.httpApi] =
      .panicked L "not yet implemented" :=
  C9_unimplemented_components_panic sort_by_key_stable sort_by_key_stable_spec
    sampleEnv [Component.httpApi] (by decide)
    (by decide) 4660 none (by decide) rfl (Or.inl (by decide))

/-- C10 counterexample: the component set `[tree_api, core]` contains `core` and the
bridge address is absent, yet `build` returns a graceful validation error rather
than panicking — the `tree_api` check fires before the core expansion. -/
theorem C10_bridge_panic_cex :
    (build sort_by_key_stable sampleEnvNoBridge
      [Component.treeApi, Component.core]).isPanicked = false ∧
    (build sort_by_key_stable sampleEnvNoBridge
      [Component.treeApi, Component.core]).failMsg =
      some "Merkle tree API cannot be started without a tree component" := by
  decide

/-- C10 (amended): for every component set containing `core` but neither `tree` nor
`tree_api` (which would fail validation first), if the remote L2 shared bridge
address is absent then `build` panics with "L2 shared bridge address is not set"
rather than returning a build error — a set bridge address is an unstated
precondition of the core expansion. -/
theorem C10_missing_bridge_panics (f : List Component → List Component)
    (hf : sort_unstable_spec f) (env : Env) (comps : List Component)
    (hcore : Component.core ∈ comps) (htree : Component.tree ∉ comps)
    (hta : Component.treeApi ∉ comps)
    (hb : env.config.remote.l2_shared_bridge_addr = none) :
    ∃ L, build f env comps = .panicked L "L2 shared bridge address is not set" := by
  have hcz : Component.core ∈ (f comps).filter (fun c => component_key c == 0) :=
    List.mem_filter.mpr ⟨(hf comps).1.mem_iff.mpr hcore, by simp [component_key]⟩
  have hall : ∀ c ∈ (f comps).filter (fun c => component_key c == 0),
      c = .treeFetcher ∨ c = .core := by
    intro c hc
    have hk : component_key c = 0 := by simpa using List.of_mem_filter hc
    have hcm : c ∈ comps := (hf comps).1.mem_iff.mp (List.mem_of_mem_filter hc)
    rcases (component_key_eq_zero_iff c).mp hk with h | h | h | h
    · exact absurd (h ▸ hcm) htree
    · exact absurd (h ▸ hcm) hta
    · exact Or.inl h
    · exact Or.inr h
  obtain ⟨t, ht⟩ := run_components_panic_bridge env
    ((f comps).filter (fun c => component_key c == 0) ++
      (f comps).filter (fun c => component_key c == 1)) hb
    ((f comps).filter (fun c => component_key c == 0)) (base_layers env) hcz hall
  exact ⟨base_layers env ++ t, by rw [build_eq_andThen_parts f hf, ht]; rfl⟩

/-- Witness for the amended C10 at the component set `[core]`. -/
theorem C10_missing_bridge_panics_witness :
    ∃ L, build sort_by_key_stable sampleEnvNoBridge [Component.core] =
      .panicked L "L2 shared bridge address is not set" :=
  C10_missing_bridge_panics sort_by_key_stable sort_by_key_stable_spec
    sampleEnvNoBridge [Component.core] (by decide) (by decide) (by decide) rfl

/-- For a component list over `core`/`tree_fetcher` only, the build succeeds with a
layer list satisfying the loop invariant (flags given by membership in the input). -/
theorem build_producers_eq (f : List Component → List Component)
    (hf : sort_unstable_spec f) (env : Env) (comps : List Component)
    (a : Nat) (sec : Option Nat)
    (hset : ∀ c ∈ comps, c = .core ∨ c = .treeFetcher)
    (hb : env.config.remote.l2_shared_bridge_addr = some a)
    (hs : env.read_consensus_secrets = Except.ok sec) :
    ∃ L, build f env comps = .ok L ∧
      LoopInv env a sec (decide (Component.core ∈ comps))
        (decide (Component.treeFetcher ∈ comps)) L := by
  have hall : ∀ c ∈ f comps, c = .treeFetcher ∨ c = .core :=
    fun c hc => (hset c ((hf comps).1.mem_iff.mp hc)).symm
  obtain ⟨L, hrun, hinv⟩ := run_components_loop_inv env a sec hb hs (f comps)
    (f comps) (base_layers env) false false hall (loop_inv_base env a sec)
  refine ⟨L, ?_, ?_⟩
  · rw [build_eq_run, hrun]
  · have e1 : decide (Component.core ∈ f comps) =
        decide (Component.core ∈ comps) :=
      decide_eq_decide.mpr (hf comps).1.mem_iff
    have e2 : decide (Component.treeFetcher ∈ f comps) =
        decide (Component.treeFetcher ∈ comps) :=
      decide_eq_decide.mpr (hf comps).1.mem_iff
    rw [e1, e2] at hinv
    simpa using hinv

/-- C3: for every valid component set (over the implemented producer components,
with the core preconditions satisfied), the build succeeds; the final layer count is
the base-layer count plus each distinct selected component's expansion size
(`core_layers` for `core`, one layer for `tree_fetcher`), no layer is registered
twice, and appending a duplicate of an already-selected component to the input
yields a build with the same layers up to order (duplicates are semantically a
no-op; the registration order of the unchanged layer set may vary only with the
unstable sort's choice of equal-key order). -/
theorem C3_duplicate_components_noop (f : List Component → List Component)
    (hf : sort_unstable_spec f) (env : Env) (comps : List Component)
    (a : Nat) (sec : Option Nat)
    (hset : ∀ c ∈ comps, c = .core ∨ c = .treeFetcher)
    (hb : env.config.remote.l2_shared_bridge_addr = some a)
    (hs : env.read_consensus_secrets = Except.ok sec) :
    ∃ L, build f env comps = .ok L ∧
      L.length = (base_layers env).length +
        (if Component.core ∈ comps then (core_layers env a sec).length else 0) +
        (if Component.treeFetcher ∈ comps then 1 else 0) ∧
      L.Nodup ∧
      ∀ c ∈ comps, ∃ L2, build f env (comps ++ [c]) = .ok L2 ∧
        List.Perm L2 L := by
  obtain ⟨L, hbuild, hinv⟩ := build_producers_eq f hf env comps a sec hset hb hs
  refine ⟨L, hbuild, ?_, hinv.2.2.1, ?_⟩
  · simpa [Bool.cond_decide] using hinv.2.2.2.1
  · intro c hc
    have hset2 : ∀ d ∈ comps ++ [c], d = .core ∨ d = .treeFetcher := by
      intro d hd
      rcases List.mem_append.mp hd with hd | hd
      · exact hset d hd
      · rw [List.mem_singleton] at hd
        exact hd ▸ hset c hc
    obtain ⟨L2, hbuild2, hinv2⟩ :=
      build_producers_eq f hf env (comps ++ [c]) a sec hset2 hb hs
    have hceq : (Component.core ∈ comps ++ [c]) ↔ (Component.core ∈ comps) := by
      simp only [List.mem_append, List.mem_singleton]
      constructor
      · rintro (h | rfl)
        · exact h
        · exact hc
      · exact Or.inl
    have hteq : (Component.treeFetcher ∈ comps ++ [c]) ↔
        (Component.treeFetcher ∈ comps) := by
      simp only [List.mem_append, List.mem_singleton]
      constructor
      · rintro (h | rfl)
        · exact h
        · exact hc
      · exact Or.inl
    have e1 : decide (Component.core ∈ comps ++ [c]) =
        decide (Component.core ∈ comps) := decide_eq_decide.mpr hceq
    have e2 : decide (Component.treeFetcher ∈ comps ++ [c]) =
        decide (Component.treeFetcher ∈ comps) := decide_eq_decide.mpr hteq
    rw [e1, e2] at hinv2
    exact ⟨L2, hbuild2, loop_inv_perm env a sec _ _ L2 L hinv2 hinv⟩

/-- Witness for C3 at the component set `[core, tree_fetcher]`. -/
theorem C3_duplicate_components_noop_witness :
    ∃ L, build sort_by_key_stable sampleEnv
        [Component.core, Component.treeFetcher] = .ok L ∧
      L.length = (base_layers sampleEnv).length +
        (if Component.core ∈ [Component.core, Component.treeFetcher] then
          (core_layers sampleEnv 4660 none).length else 0) +
        (if Component.treeFetcher ∈ [Component.core, Component.treeFetcher] then 1
          else 0) ∧
      L.Nodup ∧
      ∀ c ∈ [Component.core, Component.treeFetcher],
        ∃ L2, build sort_by_key_stable sampleEnv
            ([Component.core, Component.treeFetcher] ++ [c]) = .ok L2 ∧
          List.Perm L2 L :=
  C3_duplicate_components_noop sort_by_key_stable sort_by_key_stable_spec
    sampleEnv [Component.core, Component.treeFetcher]
    4660 none (by decide) rfl rfl

/-- C6: for a successful build whose component set includes `core`, the pruning
layer is present in the finalized layer sequence if and only if pruning is enabled
in configuration, and any pruning layer present carries exactly the configured
removal delay, chunk size, and data-retention window; when pruning is disabled the
pruning step is a skip, not an error. -/
theorem C6_pruning_iff_enabled (f : List Component → List Component)
    (hf : sort_unstable_spec f) (env : Env) (comps : List Component)
    (a : Nat) (sec : Option Nat)
    (hset : ∀ c ∈ comps, c = .core ∨ c = .treeFetcher)
    (hcore : Component.core ∈ comps)
    (hb : env.config.remote.l2_shared_bridge_addr = some a)
    (hs : env.read_consensus_secrets = Except.ok sec) :
    (∃ L, build f env comps = .ok L ∧
      ((∃ d ch r, Layer.pruning d ch r ∈ L) ↔
        env.config.optional.pruning_enabled = true) ∧
      (∀ d ch r, Layer.pruning d ch r ∈ L →
        d = env.config.optional.pruning_removal_delay ∧
        ch = env.config.optional.pruning_chunk_size ∧
        r = env.config.optional.pruning_data_retention)) ∧
    (env.config.optional.pruning_enabled = false →
      ∀ ls, add_pruning_layer env ls = .ok ls) := by
  constructor
  · obtain ⟨L, hbuild, hinv⟩ := build_producers_eq f hf env comps a sec hset hb hs
    refine ⟨L, hbuild, ?_, ?_⟩
    · constructor
      · rintro ⟨d, ch, r, hm⟩
        rcases hinv.2.2.2.2.1 _ hm with hmm | hmm | hmm
        · exact absurd (tag_lt_of_mem_base_layers env _ hmm) (by simp [Layer.tag])
        · exact ((pruning_mem_core_layers_iff env a sec d ch r).mp hmm).1
        · simp at hmm
      · intro hen
        refine ⟨env.config.optional.pruning_removal_delay,
          env.config.optional.pruning_chunk_size,
          env.config.optional.pruning_data_retention, ?_⟩
        have hmem : Layer.pruning env.config.optional.pruning_removal_delay
            env.config.optional.pruning_chunk_size
            env.config.optional.pruning_data_retention ∈
              core_layers env a sec := by
          simp [core_layers, hen]
        exact (hinv.1 _ hmem).mpr (by simp [hcore])
    · intro d ch r hm
      rcases hinv.2.2.2.2.1 _ hm with hmm | hmm | hmm
      · exact absurd (tag_lt_of_mem_base_layers env _ hmm) (by simp [Layer.tag])
      · exact ((pruning_mem_core_layers_iff env a sec d ch r).mp hmm).2
      · simp at hmm
  · intro hdis ls
    simp [add_pruning_layer, hdis]

/-- Witness for C6 at the component set `[core]` (pruning enabled in `sampleEnv`). -/
theorem C6_pruning_iff_enabled_witness :
    (∃ L, build sort_by_key_stable sampleEnv [Component.core] = .ok L ∧
      ((∃ d ch r, Layer.pruning d ch r ∈ L) ↔
        sampleEnv.config.optional.pruning_enabled = true) ∧
      (∀ d ch r, Layer.pruning d ch r ∈ L →
        d = sampleEnv.config.optional.pruning_removal_delay ∧
        ch = sampleEnv.config.optional.pruning_chunk_size ∧
        r = sampleEnv.config.optional.pruning_data_retention)) ∧
    (sampleEnv.config.optional.pruning_enabled = false →
      ∀ ls, add_pruning_layer sampleEnv ls = .ok ls) :=
  C6_pruning_iff_enabled sort_by_key_stable sort_by_key_stable_spec sampleEnv
    [Component.core] 4660 none (by decide) (by decide) rfl rfl

/-- C7: for the component set `[core, tree_fetcher]` (with a set bridge address and
readable consensus secrets), the build succeeds and the finalized sequence is
exactly: the base layers (sigint, healthcheck, prometheus-if-configured, pools,
main-node client, L1 client), the two precondition layers (commitment-mode
validation, chain-id validation), the full core expansion (postgres metrics; the
replication pipeline persistence → input-feed → batch-executor → state-keeper
driver; consensus; pruning-if-enabled; consistency checker; commitment generator;
batch-status updater), and finally the tree-data-fetcher layer. -/
theorem C7_core_tree_fetcher_sequence (f : List Component → List Component)
    (hf : sort_unstable_spec f) (env : Env) (a : Nat) (sec : Option Nat)
    (hb : env.config.remote.l2_shared_bridge_addr = some a)
    (hs : env.read_consensus_secrets = Except.ok sec) :
    build f env [Component.core, Component.treeFetcher] =
      .ok (base_layers env ++ core_layers env a sec ++
        [Layer.treeDataFetcher env.config.remote.diamond_proxy_addr]) := by
  have h1 := expand_core_eq_of_disjoint env [Component.core, Component.treeFetcher]
    (base_layers env) a sec hb hs (core_layers_not_mem_base env a sec)
  have htd : Layer.treeDataFetcher env.config.remote.diamond_proxy_addr ∉
      base_layers env ++ core_layers env a sec := by
    intro hm
    rcases List.mem_append.mp hm with hm | hm
    · exact (tree_data_fetcher_not_mem env a sec
        env.config.remote.diamond_proxy_addr).1 hm
    · exact (tree_data_fetcher_not_mem env a sec
        env.config.remote.diamond_proxy_addr).2 hm
  have h2 := expand_tree_fetcher_eq env [Component.core, Component.treeFetcher]
    (base_layers env ++ core_layers env a sec) htd
  have hsort : f [Component.core, Component.treeFetcher] =
      [Component.core, Component.treeFetcher] := by
    rw [(hf [Component.core, Component.treeFetcher]).2.2 (by decide)]
    rfl
  rw [build_eq_run, hsort]
  simp [run_components, h1, h2, BuildResult.andThen]

/-- Witness for C7 at the sample environment and the stable conforming sort. -/
theorem C7_core_tree_fetcher_sequence_witness :
    build sort_by_key_stable sampleEnv [Component.core, Component.treeFetcher] =
      .ok (base_layers sampleEnv ++ core_layers sampleEnv 4660 none ++
        [Layer.treeDataFetcher sampleEnv.config.remote.diamond_proxy_addr]) :=
  C7_core_tree_fetcher_sequence sort_by_key_stable sort_by_key_stable_spec
    sampleEnv 4660 none rfl rfl

end ExternalNode
